import Mathlib

/-!
# Verification of the captains-log recording and transcription core

This development gives a shallow embedding of the recording-session state
machine (`src/AudioRecordModal.ts`) and the transcription pipeline
(`src/main.ts`) of the captains-log Obsidian plugin, and proves or refutes
the frozen specification claims about them.

External collaborators (the Obsidian vault, the editor, the remote
generation service, the browser `MediaRecorder`) are modelled by explicit
data: the vault as a list of paths (or a membership test), remote calls as
boolean/optional outcomes, and device events as actions in a trace.
-/

namespace CaptainsLog

/-! ## Settings and pipeline model (src/main.ts) -/

/-- Placement preference, `insertTranscriptLocation` in `AudioPluginSettings`
(main.ts:39): `"inline" | "newNote"`. -/
inductive InsertLoc where
  | inline
  | newNote
deriving DecidableEq, Repr

/-- The settings fields the core logic reads (main.ts:31-41).  Fields not
consulted by the claims under verification (model, apiKey, folders) are
omitted. -/
structure AudioPluginSettings where
  prompt : String
  keepAudio : Bool
  includeAudioFileLink : Bool
  insertTranscriptLocation : InsertLoc
  templateFilePath : String
deriving DecidableEq, Repr

/-- Outcomes of the external collaborators consulted during one
`transcribeRecording` invocation (main.ts:226-416): whether a markdown view
is active, whether `vault.adapter.readBinary` succeeds (main.ts:243, outside
the `try`), whether the resumable-upload init returns an upload URL
(main.ts:268-271), whether the upload returns a file URI (main.ts:283-287),
the text of the first candidate part if the generation response has one
(main.ts:319-328, `none` models the `No text returned from AI model` case),
and whether `vault.create` succeeds for a new note (main.ts:400). -/
structure PipelineWorld where
  activeViewOpen : Bool
  readBinaryOk : Bool
  uploadUrlReturned : Bool
  fileUriReturned : Bool
  generatedText : Option String
  createNoteOk : Bool
deriving DecidableEq, Repr

/-- JS `String.prototype.trim`, modelled character-wise: strip leading and
trailing whitespace. -/
def trimModel (s : String) : String :=
  String.mk (((s.data.dropWhile Char.isWhitespace).reverse.dropWhile Char.isWhitespace).reverse)

/-- The inline-to-new-note fallback at the top of `transcribeRecording`
(main.ts:230-234): when inline placement is configured but no markdown view
is active, the code mutates `this.settings.insertTranscriptLocation` to
`"newNote"`.  The mutated settings object is the one all later reads (and
later invocations) observe. -/
def fallbackSettings (st : AudioPluginSettings) (w : PipelineWorld) : AudioPluginSettings :=
  if st.insertTranscriptLocation = InsertLoc.inline ∧ w.activeViewOpen = false then
    { st with insertTranscriptLocation := InsertLoc.newNote }
  else st

/-- Content of a freshly created transcript note (main.ts:337-343): the audio
embed is prepended when `this.settings.includeAudioFileLink` is set (the
code consults only this one flag), then the transcript follows. -/
def newNoteContent (st : AudioPluginSettings) (audioPath txt : String) : String :=
  (if st.includeAudioFileLink then "![[" ++ audioPath ++ "]]\n\n" else "") ++ txt

/-- Result of the upload/generate/place steps of `transcribeRecording`:
whether the returned promise rejected (only pre-`try` code can do that),
whether placement of the generated text succeeded, and the content of the
created note when new-note placement ran. -/
structure GenSteps where
  threw : Bool
  placementSucceeded : Bool
  createdNoteContent : Option String
deriving DecidableEq, Repr

/-- The body of `transcribeRecording` after the settings fallback
(main.ts:236-416), evaluated against the already-fallback-adjusted settings
`st1`.  `readBinary` failure happens before the `try` (main.ts:243) and so
rejects the promise; every failure inside the `try` block - missing upload
URL (main.ts:269-271), missing file URI (main.ts:285-287), a generation
response without text (main.ts:409-410), and even a `vault.create` error
(main.ts:404-407) - is caught (main.ts:412-415), surfaced as a notice, and
the function then returns normally. -/
def transcribeSteps (st1 : AudioPluginSettings) (w : PipelineWorld) (audioPath : String) :
    GenSteps :=
  if w.readBinaryOk = false then
    { threw := true, placementSucceeded := false, createdNoteContent := none }
  else if w.uploadUrlReturned = false then
    { threw := false, placementSucceeded := false, createdNoteContent := none }
  else if w.fileUriReturned = false then
    { threw := false, placementSucceeded := false, createdNoteContent := none }
  else
    match w.generatedText with
    | none => { threw := false, placementSucceeded := false, createdNoteContent := none }
    | some txt =>
      match st1.insertTranscriptLocation with
      | InsertLoc.inline =>
          { threw := false, placementSucceeded := true, createdNoteContent := none }
      | InsertLoc.newNote =>
          if w.createNoteOk then
            { threw := false, placementSucceeded := true,
              createdNoteContent := some (newNoteContent st1 audioPath txt) }
          else
            { threw := false, placementSucceeded := false, createdNoteContent := none }

/-- Full observable outcome of one `transcribeRecording` invocation. -/
structure TranscribeOutcome where
  threw : Bool
  placementSucceeded : Bool
  settingsAfter : AudioPluginSettings
  createdNoteContent : Option String
  placementTarget : InsertLoc
deriving DecidableEq, Repr

/-- `transcribeRecording` (main.ts:226-416): apply the inline fallback to
the shared settings object, then run the pipeline steps; the settings object
left behind is the fallback-adjusted one, and the placement target is
whatever the adjusted settings say. -/
def transcribeRecording (st : AudioPluginSettings) (w : PipelineWorld) (audioPath : String) :
    TranscribeOutcome :=
  let st1 := fallbackSettings st w
  let g := transcribeSteps st1 w audioPath
  { threw := g.threw, placementSucceeded := g.placementSucceeded, settingsAfter := st1,
    createdNoteContent := g.createdNoteContent, placementTarget := st1.insertTranscriptLocation }

/-- Cleanup decision in `handleAudioRecording` (main.ts:208-217): when
`transcribe` is requested, the code awaits `transcribeRecording` and then
deletes the saved audio file whenever the `keepAudio` checkbox was off.  The
only way to skip deletion is for `transcribeRecording`'s promise to reject,
which reaches the outer catch (main.ts:218-221); failures caught inside
`transcribeRecording` itself do not prevent deletion. -/
def audioFileDeleted (transcribe keepAudio : Bool) (st : AudioPluginSettings)
    (w : PipelineWorld) (audioPath : String) : Bool :=
  transcribe && !(transcribeRecording st w audioPath).threw && !keepAudio

/-! ## Template loading (src/main.ts:418-428, 291-294) -/

/-- `loadTemplateContent` (main.ts:418-428).  The vault is modelled as an
association list from path to file content; a path absent from it covers
both "no such file" and "not a TFile", which the code treats alike (warn and
fall through).  The JS guard is
`this.settings.templateFilePath && this.settings.templateFilePath.trim().length > 0`:
a truthy (nonempty) path whose trim is also nonempty. -/
def loadTemplateContent (st : AudioPluginSettings) (vaultMd : List (String × String)) : String :=
  if st.templateFilePath ≠ "" ∧ trimModel st.templateFilePath ≠ "" then
    match vaultMd.find? (fun pc => pc.1 == st.templateFilePath) with
    | some pc => pc.2
    | none => ""
  else ""

/-- Prompt assembly (main.ts:294):
`this.settings.prompt + (templateContent ? ("\n\nTemplate:\n" + templateContent) : "")`.
A JS string is truthy exactly when it is nonempty. -/
def combinedPrompt (prompt templateContent : String) : String :=
  prompt ++ (if templateContent ≠ "" then "\n\nTemplate:\n" ++ templateContent else "")

/-! ## Content types and file naming (src/main.ts:162-190, 432-438;
src/AudioRecordModal.ts:170) -/

/-- The declared content type of every blob finalized by `onStop`
(AudioRecordModal.ts:170): `new Blob(this.chunks, <type audio/wav>)`. -/
def finalizedBlobType : String := "audio/wav"

/-- Obsidian's `TFile.extension`: the part of the file name after the last
dot.  External collaborator, modelled directly. -/
def extOf (s : String) : String :=
  String.mk (((s.data.reverse).takeWhile (fun c => c ≠ '.')).reverse)

/-- JS `toLowerCase`, modelled character-wise. -/
def toLowerModel (s : String) : String :=
  String.mk (s.data.map Char.toLower)

/-- `getMimeType` (main.ts:432-438): lower-case the extension, map `mp3` and
`wav`, fall back to a generic octet-stream type. -/
def getMimeType (ext : String) : String :=
  let e := toLowerModel ext
  if e = "mp3" then "audio/mp3"
  else if e = "wav" then "audio/wav"
  else "application/octet-stream"

/-- Time-of-day bucket used both for recording file names (main.ts:165-170)
and for new-note titles (main.ts:349-355); the two sites contain the same
chained conditional. -/
def timeOfDayBucket (hours : Nat) : String :=
  if 4 ≤ hours ∧ hours < 12 then "Morning"
  else if 12 ≤ hours ∧ hours < 20 then "Afternoon"
  else "Night"

/-- The uniquifying loop of `handleAudioRecording` (main.ts:172-188): start
from `recording-<date>-<period>.mp3` with `count = 1`; while the candidate
path exists, increment `count` and retry with a `-<count>` suffix.  The
existence test is abstracted to a predicate on the checked name (the code
prefixes the folder when one is configured, which does not change the
produced file name).  Fuel bounds the loop; any fuel larger than the number
of colliding names yields the code's result. -/
def recordingNameLoop (vaultHas : String → Bool) (formattedDate per : String) :
    Nat → Nat → String → String
  | 0, _, fileName => fileName
  | fuel + 1, count, fileName =>
    if vaultHas fileName then
      recordingNameLoop vaultHas formattedDate per fuel (count + 1)
        ("recording-" ++ formattedDate ++ "-" ++ per ++ "-" ++ toString (count + 1) ++ ".mp3")
    else fileName

/-- The recording file name chosen by `handleAudioRecording`
(main.ts:172-188). -/
def recordingFileName (vaultHas : String → Bool) (formattedDate per : String) (fuel : Nat) :
    String :=
  recordingNameLoop vaultHas formattedDate per fuel 1
    ("recording-" ++ formattedDate ++ "-" ++ per ++ ".mp3")

/-! ## Recording session state machine (src/AudioRecordModal.ts)

The modal owns a `MediaRecorder` handle, a chunk buffer, an `isResetting`
discard flag and the resolver of the promise returned by `open()` /
`stopRecording()`.  Device events (`dataavailable`, `stop`) arrive
asynchronously; we model an execution as a list of actions folded over the
state.  Devices are numbered; a fragment is the pair of its device and a
payload.

Listener bookkeeping matters: `startRecording` registers `onDataAvailable`
and (via `setupMediaRecorder`) one `stop` listener with `addEventListener`
(AudioRecordModal.ts:141-155); `stopRecording` registers a second `stop`
listener on the same recorder (AudioRecordModal.ts:224).  `hardReset` nulls
the `onstop`/`ondataavailable` properties (AudioRecordModal.ts:206-207),
which does not remove `addEventListener` listeners, so a discarded
recorder's final events still reach `onDataAvailable`/`onStop`.  A `stop`
event therefore runs `onStop` once per registered listener: once for a
reset-discarded recorder, twice for one stopped through `stopRecording`. -/

/-- A binary fragment delivered by a capture device: the device that
produced it and an abstract payload. -/
structure Frag where
  device : Nat
  payload : Nat
deriving DecidableEq, Repr

/-- A value the current promise can be resolved with: the finalized blob
(`new Blob(this.chunks, ...)`, AudioRecordModal.ts:170) or the `null` of
`stopRecording` when no recorder exists (AudioRecordModal.ts:228). -/
inductive Resolved where
  | audioBlob (frags : List Frag)
  | nullBlob
deriving DecidableEq, Repr

/-- State of the `AudioRecordModal` session, plus bookkeeping that mirrors
the platform: `pending` is the FIFO queue of recorders whose `stop()` was
called but whose `stop` event has not yet been dispatched, paired with the
number of registered `stop` listeners; `requested` records every recorder
ever told to stop; `futureValue` is the state of the promise the current
resolver belongs to (`none` = unresolved); `accepted` counts resolutions
that took effect (a promise settles only once); `blobs` records every blob
`onStop` ever built. -/
structure ModalState where
  chunks : List Frag
  isResetting : Bool
  mediaRecorder : Option Nat
  started : List Nat
  pending : List (Nat × Nat)
  requested : List Nat
  futureValue : Option Resolved
  accepted : Nat
  blobs : List (List Frag)
deriving DecidableEq, Repr

/-- The state right after `open()` (AudioRecordModal.ts:255-261): no
recorder, empty buffer, flag down, a fresh unresolved promise. -/
def initModal : ModalState :=
  { chunks := [], isResetting := false, mediaRecorder := none, started := [],
    pending := [], requested := [], futureValue := none, accepted := 0, blobs := [] }

/-- One run of `onStop` (AudioRecordModal.ts:165-177): while a reset is in
flight, consume the event and clear the flag; otherwise build a blob from
the chunk buffer and call the stored resolver (always defined after
`open()`), which settles the promise only if it is still unresolved. -/
def onStopRun (s : ModalState) : ModalState :=
  if s.isResetting then { s with isResetting := false }
  else
    match s.futureValue with
    | none =>
        { s with blobs := s.blobs ++ [s.chunks],
                 futureValue := some (Resolved.audioBlob s.chunks), accepted := s.accepted + 1 }
    | some _ => { s with blobs := s.blobs ++ [s.chunks] }

/-- `onStop` runs once per registered `stop` listener, sequentially. -/
def onStopRuns : Nat → ModalState → ModalState
  | 0, s => s
  | k + 1, s => onStopRuns k (onStopRun s)

/-- `onDataAvailable` (AudioRecordModal.ts:158-163): drop the fragment while
a reset is in flight, otherwise append it to the chunk buffer. -/
def onData (s : ModalState) (f : Frag) : ModalState :=
  if s.isResetting then s else { s with chunks := s.chunks ++ [f] }

/-- The observable actions of a session: a successful `startRecording`
acquiring device `d` (AudioRecordModal.ts:136-150), the asynchronous
dispatch of a device's `dataavailable` or `stop` event, `stopRecording`
(AudioRecordModal.ts:219-231) and `hardReset` (AudioRecordModal.ts:203-217).
`pauseRecording`/`resumeOrStartRecording` touch only the device's live state
and the timer, never the chunk buffer, the flag or the promise, so they are
omitted here and modelled separately with the timer. -/
inductive Act where
  | userStart (d : Nat)
  | deviceData (d : Nat) (x : Nat)
  | deviceStop (d : Nat)
  | userStop
  | userReset
deriving DecidableEq, Repr

/-- One transition of the session. `userStart d`: a new recorder for device
`d` with its listeners. `deviceData`: dispatch to `onDataAvailable`.
`deviceStop d`: dispatch the queued stop event, running `onStop` once per
listener. `userStop`: `stopRecording` re-binds the resolver to a fresh
promise, then either requests a stop on the live recorder (now carrying two
`stop` listeners) or resolves the fresh promise with `null`. `userReset`:
`hardReset` requests a stop on the live recorder (which keeps its one
listener), drops the handle, raises the discard flag and clears the
buffer. -/
def stepModal (s : ModalState) : Act → ModalState
  | Act.userStart d =>
      { s with mediaRecorder := some d, started := s.started ++ [d] }
  | Act.deviceData d x => onData s { device := d, payload := x }
  | Act.deviceStop d =>
      match s.pending with
      | (d0, k) :: rest => if d0 = d then onStopRuns k { s with pending := rest } else s
      | [] => s
  | Act.userStop =>
      match s.mediaRecorder with
      | some d =>
          { s with futureValue := none, pending := s.pending ++ [(d, 2)],
                   requested := s.requested ++ [d] }
      | none =>
          { s with futureValue := some Resolved.nullBlob, accepted := s.accepted + 1 }
  | Act.userReset =>
      match s.mediaRecorder with
      | some d =>
          { s with mediaRecorder := none, isResetting := true, chunks := [],
                   pending := s.pending ++ [(d, 1)], requested := s.requested ++ [d] }
      | none => { s with isResetting := true, chunks := [] }

/-- Fold a list of actions over a state. -/
def execFrom (s : ModalState) (t : List Act) : ModalState :=
  t.foldl stepModal s

/-- Execution from the freshly opened modal. -/
def execModal (t : List Act) : ModalState :=
  execFrom initModal t

/-- Which actions the platform can actually deliver in a given state:
devices are fresh and started while no recorder is live; a device fires
`dataavailable` only before its own `stop` event, and queued `stop` events
are dispatched in request order before any later device's events (the
discarded recorder's final events are enqueued at reset time, long before a
newly acquired device produces anything); `stop` events are dispatched only
for queued requests; `stopRecording` and `hardReset` act on a recorder at
most once, and `hardReset` is observed here with a live recorder to discard
and no other stop event in flight. -/
def allowedAct (s : ModalState) : Act → Bool
  | Act.userStart d => s.mediaRecorder == none && !(s.started.contains d)
  | Act.deviceData d _ =>
      match s.pending with
      | (d0, _) :: _ => d0 == d
      | [] => s.mediaRecorder == some d && !(s.requested.contains d)
  | Act.deviceStop d =>
      match s.pending with
      | (d0, _) :: _ => d0 == d
      | [] => false
  | Act.userStop =>
      match s.mediaRecorder with
      | some d => !(s.requested.contains d)
      | none => true
  | Act.userReset =>
      match s.mediaRecorder with
      | some d => s.pending == [] && !(s.requested.contains d)
      | none => false

/-- A trace each of whose actions the platform can deliver. -/
def wfFrom (s : ModalState) : List Act → Bool
  | [] => true
  | a :: t => allowedAct s a && wfFrom (stepModal s a) t

/-! ## Elapsed-time accounting (src/AudioRecordModal.ts:136-252) -/

/-- The two timing fields of the modal (AudioRecordModal.ts:12-13):
`startTime`, the wall-clock anchor of the current recording leg, and
`elapsedTime`, the milliseconds accumulated over completed legs. -/
structure TimerState where
  startTime : Nat
  elapsedTime : Nat
deriving DecidableEq, Repr

/-- `startRecording` anchors `startTime = Date.now()`
(AudioRecordModal.ts:142); `elapsedTime` starts at 0 (field initializer). -/
def timerStart (now : Nat) : TimerState :=
  { startTime := now, elapsedTime := 0 }

/-- `pauseRecording` (AudioRecordModal.ts:179-188) folds the completed leg
into the accumulator: `this.elapsedTime += Date.now() - this.startTime`. -/
def timerPause (s : TimerState) (now : Nat) : TimerState :=
  { s with elapsedTime := s.elapsedTime + (now - s.startTime) }

/-- `resumeOrStartRecording` (AudioRecordModal.ts:190-201) re-anchors
`this.startTime = Date.now()`. -/
def timerResume (s : TimerState) (now : Nat) : TimerState :=
  { s with startTime := now }

/-- The seconds value the ticker displays (AudioRecordModal.ts:236):
`Math.floor(this.elapsedTime / 1000) + Math.floor((Date.now() - this.startTime) / 1000)`.
Natural-number division is the floor for the non-negative quantities
involved. -/
def displaySeconds (s : TimerState) (now : Nat) : Nat :=
  s.elapsedTime / 1000 + (now - s.startTime) / 1000

/-- `padNumber` (AudioRecordModal.ts:250-252). -/
def padNumber (n : Nat) : String :=
  let s := toString n
  if s.length < 2 then String.mk (List.replicate (2 - s.length) '0') ++ s else s

/-- The `mm:ss` text the ticker writes (AudioRecordModal.ts:236-239). -/
def timerText (s : TimerState) (now : Nat) : String :=
  let es := displaySeconds s now
  padNumber (es / 60) ++ ":" ++ padNumber (es % 60)

/-- A full pause/resume history within one session: the session starts
recording at `t0` and then performs the cycles `(p, r)` - pause at `p`,
resume at `r` - in order. -/
def applyCycles (s : TimerState) : List (Nat × Nat) → TimerState
  | [] => s
  | (p, r) :: rest => applyCycles (timerResume (timerPause s p) r) rest

/-- Sum of the durations of the completed recording legs: from the anchor
`t0` to the first pause, from that resume to the next pause, and so on. -/
def sumIntervals (t0 : Nat) : List (Nat × Nat) → Nat
  | [] => 0
  | (p, r) :: rest => (p - t0) + sumIntervals r rest

/-- The anchor of the current (still open) leg after a cycle history. -/
def lastAnchor (t0 : Nat) : List (Nat × Nat) → Nat
  | [] => t0
  | (_, r) :: rest => lastAnchor r rest

/-- Chronological soundness of a cycle history starting at `t0`: each pause
comes no earlier than the leg it closes, each resume no earlier than its
pause. -/
def chron (t0 : Nat) : List (Nat × Nat) → Prop
  | [] => True
  | (p, r) :: rest => t0 ≤ p ∧ p ≤ r ∧ chron r rest

def chronDecidable : (t0 : Nat) → (cs : List (Nat × Nat)) → Decidable (chron t0 cs)
  | _, [] => isTrue trivial
  | t0, (p, r) :: rest =>
    letI : Decidable (chron r rest) := chronDecidable r rest
    inferInstanceAs (Decidable (t0 ≤ p ∧ p ≤ r ∧ chron r rest))

instance : ∀ t0 cs, Decidable (chron t0 cs) := chronDecidable

/-! ## New-note title synthesis (src/main.ts:346-397) -/

/-- The base note title (main.ts:356):
`Captain's Log ${formattedDate}-${ampm}`. -/
def noteTitleBase (formattedDate ampm : String) : String :=
  "Captain's Log " ++ formattedDate ++ "-" ++ ampm

/-- The disambiguation loop of `transcribeRecording` in the vault-root
branch (main.ts:390-395): `noteCount` starts at 1 and the base title is
tried first; while `<finalTitle>.md` exists, increment `noteCount` and
retry with the `-<noteCount>` suffix.  The folder branches (main.ts:372-376
and 383-387) run the same loop against a prefixed path.  Fuel bounds the
loop as in `recordingNameLoop`. -/
def noteTitleLoop (vaultHas : String → Bool) (formattedDate ampm : String) :
    Nat → Nat → String → String
  | 0, _, finalTitle => finalTitle
  | fuel + 1, noteCount, finalTitle =>
    if vaultHas (finalTitle ++ ".md") then
      noteTitleLoop vaultHas formattedDate ampm fuel (noteCount + 1)
        (noteTitleBase formattedDate ampm ++ "-" ++ toString (noteCount + 1))
    else finalTitle

/-- The note path finally used in the vault-root branch (main.ts:395):
`${finalTitle}.md`. -/
def newNotePath (vaultHas : String → Bool) (formattedDate : String) (hours : Nat)
    (fuel : Nat) : String :=
  noteTitleLoop vaultHas formattedDate (timeOfDayBucket hours) fuel 1
    (noteTitleBase formattedDate (timeOfDayBucket hours)) ++ ".md"

/-! ## Audio-link resolver (src/main.ts:457-514)

`commandGenerateTranscript` scans the text before the cursor with two
global regexes and hands them to `findFilePath`:

  - wiki style: a run of non-square-bracket characters between `[[` and
    `]]`, ending in `.mp3` or `.wav` (main.ts:461);
  - markdown style: after a `[`, any same-line characters, `](`, then a run
    of non-square-bracket characters ending in `.mp3` or `.wav`, followed by
    `)` (main.ts:462).

`findFilePath` (main.ts:498-514) iterates `reg.exec` to exhaustion for the
wiki regex and THEN for the markdown regex, overwriting `filename` at every
match; the survivor is the last markdown-style match when any exists,
regardless of positions.  The scanners below reproduce the JS `exec`
semantics for these two concrete patterns: matches are found left to right,
the body is greedy, and scanning resumes at the end of the matched text
(lookarounds consume nothing). -/

/-- Whether a candidate match body is a recognized audio reference:
`([^[\]])+\.(mp3|wav)` forces at least one body character before the dot,
so the whole match has length at least 5 and ends in `.mp3` or `.wav`. -/
def audioTail (l : List Char) : Bool :=
  let r := l.reverse
  (r.take 4 == ['3', 'p', 'm', '.'] || r.take 4 == ['v', 'a', 'w', '.']) && 5 ≤ l.length

/-- All matches of the wiki-style regex
`(?<=\[\[)(([^[\]])+)\.(mp3|wav)(?=]])` in order.  After `[[`, the body can
only extend to the maximal bracket-free run, and the `]]` lookahead forces
the match to consume exactly that run; on failure the engine advances one
position.  Fuel is the remaining text length. -/
def wikiScanF : Nat → List Char → List String
  | 0, _ => []
  | _ + 1, [] => []
  | fuel + 1, '[' :: '[' :: rest =>
    let run := rest.takeWhile (fun c => c ≠ '[' && c ≠ ']')
    let rest1 := rest.drop run.length
    if audioTail run && rest1.take 2 == [']', ']'] then
      String.mk run :: wikiScanF fuel rest1
    else
      wikiScanF fuel ('[' :: rest)
  | fuel + 1, _ :: rest => wikiScanF fuel rest

/-- Wiki-style matches of a text. -/
def wikiScan (text : String) : List String :=
  wikiScanF (text.data.length + 1) text.data

/-- The greedy body of a markdown-style match starting at `rest`: the
longest prefix of the maximal bracket-free run that ends in a recognized
audio extension and is followed immediately by `)` (the lookahead).
Returns its length. -/
def longestAudioAux (rest : List Char) : Nat → Option Nat
  | 0 => none
  | n + 1 =>
    if audioTail (rest.take (n + 1)) && (rest.drop (n + 1)).take 1 == [')'] then
      some (n + 1)
    else longestAudioAux rest n

/-- Length of the markdown-style match body at this position, if any. -/
def longestAudio (rest : List Char) : Option Nat :=
  longestAudioAux rest (rest.takeWhile (fun c => c ≠ '[' && c ≠ ']')).length

/-- All matches of the markdown-style regex
`(?<=\[(.*)]\()(([^[\]])+)\.(mp3|wav)(?=\))` in order.  The lookbehind
requires `](` immediately before the match and, somewhere before that on
the same line (`.` does not cross newlines), a `[`; the flag `lb` tracks
whether a `[` has been seen since the last newline.  Fuel is the remaining
text length. -/
def mdScanF : Nat → Bool → List Char → List String
  | 0, _, _ => []
  | _ + 1, _, [] => []
  | fuel + 1, lb, ']' :: '(' :: rest =>
    if lb then
      match longestAudio rest with
      | some n =>
        let body := rest.take n
        String.mk body ::
          mdScanF fuel (if body.any (fun c => c = '\n') then false else lb) (rest.drop n)
      | none => mdScanF fuel lb ('(' :: rest)
    else mdScanF fuel lb ('(' :: rest)
  | fuel + 1, _, '[' :: rest => mdScanF fuel true rest
  | fuel + 1, lb, c :: rest => mdScanF fuel (if c = '\n' then false else lb) rest

/-- Markdown-style matches of a text. -/
def mdScan (text : String) : List String :=
  mdScanF (text.data.length + 1) false text.data

/-- `decodeURI`, an external JS builtin; identity on inputs free of
percent-escapes, which is all this development evaluates it on. -/
def decodeURIModel (s : String) : String := s

/-- Obsidian's `normalizePath`, an external collaborator; identity on inputs
already in normal form, which is all this development evaluates it on. -/
def normalizePathModel (s : String) : String := s

/-- The `filename` variable after the two regex loops of `findFilePath`
(main.ts:499-505): every match overwrites it with
`normalizePath(decodeURI(result[0])).trim()`, first all wiki-style matches,
then all markdown-style matches. -/
def chosenFilename (text : String) : String :=
  let f1 := (wikiScan text).foldl (fun _ r => trimModel (normalizePathModel (decodeURIModel r))) ""
  (mdScan text).foldl (fun _ r => trimModel (normalizePathModel (decodeURIModel r))) f1

/-- The last path segment: `filename.split('/').pop()`, also Obsidian's
`TFile.name` for a vault path. -/
def lastSeg (s : String) : String :=
  String.mk ((s.data.reverse.takeWhile (fun c => c ≠ '/')).reverse)

/-- `findFilePath` (main.ts:498-514): run the two regex loops; an empty
survivor is the `No file found in the text.` error; otherwise return the
path verbatim when it exists in the vault, else the path of the first vault
file whose name equals the survivor's last segment, else the
`File not found` error.  The vault is the list of its file paths. -/
def findFilePath (vaultPaths : List String) (text : String) : Except String String :=
  let filename := chosenFilename text
  if filename = "" then Except.error "No file found in the text."
  else
    let fullPath := filename
    if vaultPaths.contains fullPath then Except.ok fullPath
    else
      match vaultPaths.find? (fun p => lastSeg p == lastSeg filename) with
      | some p => Except.ok p
      | none => Except.error "File not found"

instance : DecidableEq (Except String String) := fun a b =>
  match a, b with
  | Except.ok x, Except.ok y =>
      if h : x = y then isTrue (by rw [h]) else isFalse (by simp [h])
  | Except.error x, Except.error y =>
      if h : x = y then isTrue (by rw [h]) else isFalse (by simp [h])
  | Except.ok _, Except.error _ => isFalse (by simp)
  | Except.error _, Except.ok _ => isFalse (by simp)

/-! # The claims

Each claim of the frozen list gets one theorem below (plus, where required,
a closed counterexample or witness). -/

/-! ## C1 - cleanup vs. pipeline failure -/

/-- Claim C1 states that the source audio file is deleted iff placement
succeeded and keep-audio is false, and in particular that a failed
generation step leaves the file in place.  The code violates this: every
failure inside `transcribeRecording`'s `try` block is caught there
(main.ts:412-415), so the `await` in `handleAudioRecording` completes
normally and the `!keepAudio` branch (main.ts:210-216) deletes the file
anyway.  This theorem evaluates the embedding at the failing input - a
generation response with no text (`generatedText = none`), keep-audio off -
and shows the file is deleted although placement did not succeed.  The
older revision of the pipeline kept in the repository
(AudioRecordModal.ts:489-491) deleted the file inside the `try`, after a
successful placement only, which together with the spec marks the current
behaviour as a slip. -/
theorem claim_C1_deletes_despite_generation_failure :
    (transcribeRecording
        { prompt := "p", keepAudio := false, includeAudioFileLink := false,
          insertTranscriptLocation := InsertLoc.newNote, templateFilePath := "" }
        { activeViewOpen := true, readBinaryOk := true, uploadUrlReturned := true,
          fileUriReturned := true, generatedText := none, createNoteOk := true }
        "r.mp3").placementSucceeded = false ∧
    audioFileDeleted true false
        { prompt := "p", keepAudio := false, includeAudioFileLink := false,
          insertTranscriptLocation := InsertLoc.newNote, templateFilePath := "" }
        { activeViewOpen := true, readBinaryOk := true, uploadUrlReturned := true,
          fileUriReturned := true, generatedText := none, createNoteOk := true }
        "r.mp3" = true := by
  decide

/-! ## C5 - the inline fallback is sticky -/

/-- Counterexample to claim C5: the claim says the inline-to-new-note
fallback holds "for that invocation only" and that the placement preference
observable by later invocations is unchanged.  In the code the fallback
writes `"newNote"` into the shared settings object (main.ts:233) and never
restores it: starting from an inline preference with no active document,
the post-invocation settings carry `newNote`, and a second invocation that
does have an active document still targets a new note. -/
theorem claim_C5_counterexample :
    (transcribeRecording
        { prompt := "p", keepAudio := true, includeAudioFileLink := false,
          insertTranscriptLocation := InsertLoc.inline, templateFilePath := "" }
        { activeViewOpen := false, readBinaryOk := true, uploadUrlReturned := true,
          fileUriReturned := true, generatedText := some "T", createNoteOk := true }
        "r.mp3").settingsAfter.insertTranscriptLocation = InsertLoc.newNote ∧
    InsertLoc.newNote ≠ InsertLoc.inline ∧
    (transcribeRecording
        (transcribeRecording
          { prompt := "p", keepAudio := true, includeAudioFileLink := false,
            insertTranscriptLocation := InsertLoc.inline, templateFilePath := "" }
          { activeViewOpen := false, readBinaryOk := true, uploadUrlReturned := true,
            fileUriReturned := true, generatedText := some "T", createNoteOk := true }
          "r.mp3").settingsAfter
        { activeViewOpen := true, readBinaryOk := true, uploadUrlReturned := true,
          fileUriReturned := true, generatedText := some "T2", createNoteOk := true }
        "r2.mp3").placementTarget = InsertLoc.newNote := by
  decide

/-- Claim C5 as amended: the fallback from inline to new-note placement,
taken when no active document exists, overwrites the in-memory placement
preference, so every later invocation observes `newNote` (even with an
active document) until the settings are reloaded; when the fallback is not
taken the settings object is left untouched.  (The code does not write the
settings to disk at that moment, but the mutated object is what later
invocations read, and what the next `saveSettings` call persists.) -/
theorem claim_C5_fallback_persists (st : AudioPluginSettings) (w w2 : PipelineWorld)
    (p p2 : String) :
    (st.insertTranscriptLocation = InsertLoc.inline ∧ w.activeViewOpen = false →
      (transcribeRecording st w p).settingsAfter.insertTranscriptLocation = InsertLoc.newNote ∧
      (transcribeRecording (transcribeRecording st w p).settingsAfter w2 p2).placementTarget
        = InsertLoc.newNote) ∧
    (¬(st.insertTranscriptLocation = InsertLoc.inline ∧ w.activeViewOpen = false) →
      (transcribeRecording st w p).settingsAfter = st) := by
  constructor
  · rintro ⟨h1, h2⟩
    constructor
    · simp [transcribeRecording, fallbackSettings, h1, h2]
    · simp [transcribeRecording, fallbackSettings, h1, h2]
  · intro h
    simp [transcribeRecording, fallbackSettings, h]

/-- Witness for `claim_C5_fallback_persists` at a concrete input. -/
theorem claim_C5_fallback_persists_witness :
    (transcribeRecording
        { prompt := "p", keepAudio := true, includeAudioFileLink := false,
          insertTranscriptLocation := InsertLoc.inline, templateFilePath := "" }
        { activeViewOpen := false, readBinaryOk := true, uploadUrlReturned := true,
          fileUriReturned := true, generatedText := some "T", createNoteOk := true }
        "r.mp3").settingsAfter.insertTranscriptLocation = InsertLoc.newNote :=
  ((claim_C5_fallback_persists
      { prompt := "p", keepAudio := true, includeAudioFileLink := false,
        insertTranscriptLocation := InsertLoc.inline, templateFilePath := "" }
      { activeViewOpen := false, readBinaryOk := true, uploadUrlReturned := true,
        fileUriReturned := true, generatedText := some "T", createNoteOk := true }
      { activeViewOpen := true, readBinaryOk := true, uploadUrlReturned := true,
        fileUriReturned := true, generatedText := some "T2", createNoteOk := true }
      "r.mp3" "r2.mp3").1 (by decide)).1

/-! ## C7 - the new-note embed ignores keep-audio -/

/-- Claim C7 states the embed is prepended iff BOTH keep-audio and
include-link are set.  The code consults only `includeAudioFileLink`
(main.ts:339); with keep-audio off and include-link on it still prepends
the embed - and `handleAudioRecording` then deletes the embedded audio
file (main.ts:210-211), leaving a dangling reference.  The analogous inline
path guards on both flags (`includeAudioFileLink && keepAudio`,
main.ts:196), marking the single-flag check here as a slip.  This theorem
evaluates the embedding at the failing input. -/
theorem claim_C7_embed_despite_discard :
    (transcribeRecording
        { prompt := "p", keepAudio := false, includeAudioFileLink := true,
          insertTranscriptLocation := InsertLoc.newNote, templateFilePath := "" }
        { activeViewOpen := true, readBinaryOk := true, uploadUrlReturned := true,
          fileUriReturned := true, generatedText := some "TEXT", createNoteOk := true }
        "a.mp3").createdNoteContent = some ("![[a.mp3]]\n\nTEXT") ∧
    "![[a.mp3]]\n\nTEXT" ≠ "TEXT" ∧
    audioFileDeleted true false
        { prompt := "p", keepAudio := false, includeAudioFileLink := true,
          insertTranscriptLocation := InsertLoc.newNote, templateFilePath := "" }
        { activeViewOpen := true, readBinaryOk := true, uploadUrlReturned := true,
          fileUriReturned := true, generatedText := some "TEXT", createNoteOk := true }
        "a.mp3" = true := by
  decide

/-! ## C9 - template loading is non-fatal and optional -/

/-- Claim C9: an empty (or all-whitespace) configured template path, or one
that resolves to no file, makes `loadTemplateContent` return the empty
string without failing, in which case the instruction text is exactly the
configured prompt; the `"\n\nTemplate:\n"` section is appended exactly when
the template content is nonempty.  (`loadTemplateContent` is total in the
embedding because the code reads the template file only after a successful
lookup; no failure path exists.) -/
theorem claim_C9_template_optional (st : AudioPluginSettings)
    (vaultMd : List (String × String)) (prompt : String) :
    (trimModel st.templateFilePath = "" → loadTemplateContent st vaultMd = "") ∧
    (vaultMd.find? (fun pc => pc.1 == st.templateFilePath) = none →
      loadTemplateContent st vaultMd = "") ∧
    (loadTemplateContent st vaultMd = "" →
      combinedPrompt prompt (loadTemplateContent st vaultMd) = prompt) ∧
    (∀ t : String,
      combinedPrompt prompt t =
        if t = "" then prompt else prompt ++ ("\n\nTemplate:\n" ++ t)) := by
  refine ⟨?_, ?_, ?_, ?_⟩
  · intro h
    unfold loadTemplateContent
    rw [if_neg]
    rintro ⟨-, h2⟩
    exact h2 h
  · intro h
    unfold loadTemplateContent
    split
    · rw [h]
    · rfl
  · intro h
    rw [h]
    simp [combinedPrompt]
  · intro t
    by_cases h : t = ""
    · simp [combinedPrompt, h]
    · simp [combinedPrompt, h, String.append_assoc]

/-- Witness for `claim_C9_template_optional` at concrete inputs: a
whitespace-only path and a missing file both yield the bare prompt. -/
theorem claim_C9_template_optional_witness :
    loadTemplateContent
      { prompt := "p", keepAudio := true, includeAudioFileLink := false,
        insertTranscriptLocation := InsertLoc.newNote, templateFilePath := " " }
      [("T.md", "body")] = "" ∧
    loadTemplateContent
      { prompt := "p", keepAudio := true, includeAudioFileLink := false,
        insertTranscriptLocation := InsertLoc.newNote, templateFilePath := "U.md" }
      [("T.md", "body")] = "" ∧
    combinedPrompt "p"
      (loadTemplateContent
        { prompt := "p", keepAudio := true, includeAudioFileLink := false,
          insertTranscriptLocation := InsertLoc.newNote, templateFilePath := "U.md" }
        [("T.md", "body")]) = "p" := by
  refine ⟨?_, ?_, ?_⟩
  · exact (claim_C9_template_optional
      { prompt := "p", keepAudio := true, includeAudioFileLink := false,
        insertTranscriptLocation := InsertLoc.newNote, templateFilePath := " " }
      [("T.md", "body")] "p").1 (by decide)
  · exact (claim_C9_template_optional
      { prompt := "p", keepAudio := true, includeAudioFileLink := false,
        insertTranscriptLocation := InsertLoc.newNote, templateFilePath := "U.md" }
      [("T.md", "body")] "p").2.1 (by decide)
  · exact (claim_C9_template_optional
      { prompt := "p", keepAudio := true, includeAudioFileLink := false,
        insertTranscriptLocation := InsertLoc.newNote, templateFilePath := "U.md" }
      [("T.md", "body")] "p").2.2.1
      ((claim_C9_template_optional
        { prompt := "p", keepAudio := true, includeAudioFileLink := false,
          insertTranscriptLocation := InsertLoc.newNote, templateFilePath := "U.md" }
        [("T.md", "body")] "p").2.1 (by decide))

/-! ## C10 - produce-time vs. pipeline content type -/

/-- `String.append` acts on the underlying character lists. -/
theorem data_append (a b : String) : (a ++ b).data = a.data ++ b.data := by
  obtain ⟨l⟩ := a
  obtain ⟨m⟩ := b
  rfl

/-- The extension after the last dot of `stem ++ ".mp3"` is `mp3`, whatever
the stem contains. -/
theorem extOf_append_mp3 (stem : String) : extOf (stem ++ ".mp3") = "mp3" := by
  unfold extOf
  rw [data_append]
  show String.mk
      ((List.takeWhile _ ((stem.data ++ ['.', 'm', 'p', '3']).reverse)).reverse) = "mp3"
  rw [List.reverse_append]
  rfl

/-- Every candidate the naming loop can return appends `.mp3` to a stem. -/
theorem recordingNameLoop_mp3 (vaultHas : String → Bool) (formattedDate per : String) :
    ∀ (fuel count : Nat) (stem : String),
      ∃ stem2, recordingNameLoop vaultHas formattedDate per fuel count (stem ++ ".mp3")
        = stem2 ++ ".mp3" := by
  intro fuel
  induction fuel with
  | zero => intro count stem; exact ⟨stem, rfl⟩
  | succ n ih =>
    intro count stem
    unfold recordingNameLoop
    split
    · exact ih (count + 1) ("recording-" ++ formattedDate ++ "-" ++ per ++ "-"
        ++ toString (count + 1))
    · exact ⟨stem, rfl⟩

/-- Claim C10: every artifact the Capture Finalizer produces is declared
`audio/wav` (AudioRecordModal.ts:170), while `handleAudioRecording` saves
it under a `recording-<date>-<bucket>[-n].mp3` name (main.ts:172-188), so
`getMimeType` resolves every session-produced recording to `audio/mp3`
(main.ts:434) - never the produce-time `audio/wav`. -/
theorem claim_C10_mime_mismatch (vaultHas : String → Bool) (formattedDate per : String)
    (fuel : Nat) :
    (∃ stem, recordingFileName vaultHas formattedDate per fuel = stem ++ ".mp3") ∧
    getMimeType (extOf (recordingFileName vaultHas formattedDate per fuel)) = "audio/mp3" ∧
    finalizedBlobType = "audio/wav" ∧
    getMimeType (extOf (recordingFileName vaultHas formattedDate per fuel))
      ≠ finalizedBlobType := by
  obtain ⟨stem2, h2⟩ := recordingNameLoop_mp3 vaultHas formattedDate per fuel 1
    ("recording-" ++ formattedDate ++ "-" ++ per)
  have hname : recordingFileName vaultHas formattedDate per fuel = stem2 ++ ".mp3" := by
    unfold recordingFileName
    rw [show "recording-" ++ formattedDate ++ "-" ++ per ++ ".mp3"
        = ("recording-" ++ formattedDate ++ "-" ++ per) ++ ".mp3" from rfl]
    exact h2
  have hext : getMimeType (extOf (recordingFileName vaultHas formattedDate per fuel))
      = "audio/mp3" := by
    rw [hname, extOf_append_mp3]
    decide
  refine ⟨⟨stem2, hname⟩, hext, rfl, ?_⟩
  rw [hext]
  decide

/-! ## C8 - note title buckets and disambiguation -/

/-- Claim C8: the new-note title is the date plus the coarse time-of-day
bucket - `Morning` for hours 4-11, `Afternoon` for 12-19, `Night`
otherwise - disambiguated by an incrementing numeric suffix until the path
is free; with exactly `Captain's Log 2024-01-01-Morning.md` already
present, the loop (starting at `noteCount = 1` and suffixing from `-2`)
produces `Captain's Log 2024-01-01-Morning-2.md`. -/
theorem claim_C8_title_disambiguation (h : Nat) :
    ((timeOfDayBucket h = "Morning" ↔ (4 ≤ h ∧ h < 12)) ∧
     (timeOfDayBucket h = "Afternoon" ↔ (12 ≤ h ∧ h < 20)) ∧
     (timeOfDayBucket h = "Night" ↔ (h < 4 ∨ 20 ≤ h))) ∧
    newNotePath (fun p => p == "Captain's Log 2024-01-01-Morning.md") "2024-01-01" 9 5
      = "Captain's Log 2024-01-01-Morning-2.md" := by
  constructor
  · unfold timeOfDayBucket
    split
    · rename_i h1
      refine ⟨⟨fun _ => h1, fun _ => rfl⟩, ⟨fun hc => ?_, fun hc => ?_⟩,
        ⟨fun hc => ?_, fun hc => ?_⟩⟩
      · exact absurd hc (by decide)
      · omega
      · exact absurd hc (by decide)
      · omega
    · split
      · rename_i h1 h2
        refine ⟨⟨fun hc => ?_, fun hc => ?_⟩, ⟨fun _ => h2, fun _ => rfl⟩,
          ⟨fun hc => ?_, fun hc => ?_⟩⟩
        · exact absurd hc (by decide)
        · omega
        · exact absurd hc (by decide)
        · omega
      · rename_i h1 h2
        refine ⟨⟨fun hc => ?_, fun hc => ?_⟩, ⟨fun hc => ?_, fun hc => ?_⟩,
          ⟨fun _ => ?_, fun _ => rfl⟩⟩
        · exact absurd hc (by decide)
        · omega
        · exact absurd hc (by decide)
        · omega
        · omega
  · decide

/-! ## C4 - elapsed-time display -/

/-- Counterexample to claim C4: the claim reads the ticker as showing
`floor` of the accumulated `elapsedMillis` plus the current interval, at
one-second granularity, equivalently the sum of the recording intervals.
The code (AudioRecordModal.ts:236) instead sums two separately floored
quotients, which loses up to a second across a pause/resume cycle: start at
0ms, pause at 1500ms, resume at 2000ms; at 3500ms the recorded intervals
total 3000ms, so the claimed display is 3 seconds, but the ticker shows
`1 + 1 = 2`. -/
theorem claim_C4_counterexample :
    displaySeconds (timerResume (timerPause (timerStart 0) 1500) 2000) 3500 = 2 ∧
    ((timerResume (timerPause (timerStart 0) 1500) 2000).elapsedTime
        + (3500 - (timerResume (timerPause (timerStart 0) 1500) 2000).startTime)) / 1000
      = 3 ∧
    sumIntervals 0 [(1500, 2000)] + (3500 - lastAnchor 0 [(1500, 2000)]) = 3000 ∧
    timerText (timerResume (timerPause (timerStart 0) 1500) 2000) 3500 = "00:02" ∧
    (2 : Nat) ≠ 3 := by
  decide

/-- Claim C4 as amended: after any chronological sequence of pause/resume
cycles, `elapsedMillis` holds exactly the sum of the completed
recording-interval durations (independent of how many cycles occurred), and
the ticker displays `floor(elapsedMillis / 1000) + floor((now - startTimestamp) / 1000)`
seconds, i.e. the separately floored completed total plus the separately
floored current interval - not the floor of their sum. -/
theorem claim_C4_display (t0 now : Nat) (cs : List (Nat × Nat)) (hc : chron t0 cs) :
    (applyCycles (timerStart t0) cs).elapsedTime = sumIntervals t0 cs ∧
    (applyCycles (timerStart t0) cs).startTime = lastAnchor t0 cs ∧
    displaySeconds (applyCycles (timerStart t0) cs) now
      = sumIntervals t0 cs / 1000 + (now - lastAnchor t0 cs) / 1000 := by
  have main : ∀ (cs : List (Nat × Nat)) (s : TimerState), chron s.startTime cs →
      (applyCycles s cs).elapsedTime = s.elapsedTime + sumIntervals s.startTime cs ∧
      (applyCycles s cs).startTime = lastAnchor s.startTime cs := by
    intro cs
    induction cs with
    | nil => intro s _; exact ⟨by simp [applyCycles, sumIntervals], rfl⟩
    | cons pr rest ih =>
      obtain ⟨p, r⟩ := pr
      intro s hc
      obtain ⟨h1, h2, h3⟩ := hc
      have := ih (timerResume (timerPause s p) r) h3
      refine ⟨?_, ?_⟩
      · rw [show applyCycles s ((p, r) :: rest)
            = applyCycles (timerResume (timerPause s p) r) rest from rfl,
          this.1]
        simp [timerResume, timerPause, sumIntervals]
        omega
      · rw [show applyCycles s ((p, r) :: rest)
            = applyCycles (timerResume (timerPause s p) r) rest from rfl,
          this.2]
        rfl
  have h := main cs (timerStart t0) hc
  simp only [timerStart, Nat.zero_add] at h
  refine ⟨h.1, h.2, ?_⟩
  unfold displaySeconds
  simp only [timerStart]
  rw [h.1, h.2]

/-- Witness for `claim_C4_display`: two pause/resume cycles. -/
theorem claim_C4_display_witness :
    (applyCycles (timerStart 100) [(1600, 2000), (2300, 5000)]).elapsedTime = 1800 ∧
    displaySeconds (applyCycles (timerStart 100) [(1600, 2000), (2300, 5000)]) 6500
      = 1800 / 1000 + (6500 - 5000) / 1000 := by
  have h := claim_C4_display 100 6500 [(1600, 2000), (2300, 5000)] (by decide)
  exact ⟨by rw [h.1]; decide, by rw [h.2.2]; decide⟩

/-! ## C3 - which audio reference the resolver returns -/

/-- Counterexample to claim C3: the claim says `findFilePath` returns the
positionally last audio reference before the cursor across both syntaxes,
"not a match chosen by syntax kind".  In the text
`[x](a.mp3) and then [[b.wav]]` the positionally last (closest-preceding)
reference is the wiki-style `b.wav`, but the code runs the wiki regex loop
first and the markdown regex loop second (main.ts:501-505), so the
markdown-style `a.mp3` overwrites it and is returned. -/
theorem claim_C3_counterexample :
    findFilePath ["a.mp3", "b.wav"] "[x](a.mp3) and then [[b.wav]]" = Except.ok "a.mp3" ∧
    wikiScan "[x](a.mp3) and then [[b.wav]]" = ["b.wav"] ∧
    mdScan "[x](a.mp3) and then [[b.wav]]" = ["a.mp3"] ∧
    "a.mp3" ≠ "b.wav" := by
  refine ⟨by decide, by decide, by decide, by decide⟩

/-- A fold that overwrites its accumulator with every element keeps the
last element, if any. -/
theorem foldl_overwrite (g : String → String) :
    ∀ (l : List String) (a : String), l.foldl (fun _ r => g r) a = (l.map g).getLastD a := by
  intro l
  induction l with
  | nil => intro a; rfl
  | cons x xs ih =>
    intro a
    rw [List.foldl_cons, ih (g x), List.map_cons, List.getLastD_cons]

/-- A nonempty list's `getLastD` ignores the default. -/
theorem getLastD_of_ne_nil (l : List String) (h : l ≠ []) (a b : String) :
    l.getLastD a = l.getLastD b := by
  cases l with
  | nil => exact absurd rfl h
  | cons x xs => rw [List.getLastD_cons, List.getLastD_cons]

/-- Claim C3 as amended: within each syntax kind the scan keeps the
positionally last match, but across kinds the survivor is the last
markdown-style match whenever any markdown-style match exists, and only
otherwise the last wiki-style match; with wiki-style references alone the
resolver does return the closest-preceding one, as in the spec's own
example. -/
theorem claim_C3_last_match (text : String) :
    chosenFilename text =
      (if mdScan text = []
        then ((wikiScan text).map
          (fun r => trimModel (normalizePathModel (decodeURIModel r)))).getLastD ""
        else ((mdScan text).map
          (fun r => trimModel (normalizePathModel (decodeURIModel r)))).getLastD "") ∧
    findFilePath ["a.mp3", "b.wav"] "[[a.mp3]] text [[b.wav]]" = Except.ok "b.wav" := by
  constructor
  · unfold chosenFilename
    rw [foldl_overwrite, foldl_overwrite]
    split
    · rename_i hm
      rw [hm]
      rfl
    · rename_i hm
      exact getLastD_of_ne_nil _ (by simpa using hm) _ _
  · decide

/-! ## Session trace infrastructure for C2 and C6 -/

/-- Executing an appended trace is executing the pieces in order. -/
theorem execFrom_append (s : ModalState) (t t' : List Act) :
    execFrom s (t ++ t') = execFrom (execFrom s t) t' :=
  List.foldl_append ..

/-- Well-formedness splits across an append. -/
theorem wfFrom_append (t t' : List Act) : ∀ s : ModalState,
    wfFrom s (t ++ t') = (wfFrom s t && wfFrom (execFrom s t) t') := by
  induction t with
  | nil => intro s; rfl
  | cons a t ih =>
    intro s
    show (allowedAct s a && wfFrom (stepModal s a) (t ++ t'))
      = ((allowedAct s a && wfFrom (stepModal s a) t)
          && wfFrom (execFrom (stepModal s a) t) t')
    rw [ih (stepModal s a)]
    cases allowedAct s a <;> simp

/-- Whether an action is the dispatch of a device's stop event. -/
def isDeviceStop : Act → Bool
  | Act.deviceStop _ => true
  | _ => false

/-- Whether an action is a `hardReset`. -/
def isReset : Act → Bool
  | Act.userReset => true
  | _ => false

/-- Whether an action is a successful `startRecording`. -/
def isStart : Act → Bool
  | Act.userStart _ => true
  | _ => false

/-- The invariant protecting a reset: relative to the devices `old` started
before the reset and the blob count `n` at the reset, no buffered fragment
is from an old device, at most the head of the stop-event queue is an old
device (and only while the discard flag is up), the live recorder is not an
old device, every old device was started, and every blob built since the
reset is free of old-device fragments. -/
def ResetInv (old : List Nat) (n : Nat) (s : ModalState) : Prop :=
  (∀ f ∈ s.chunks, f.device ∉ old) ∧
  (∀ p ∈ s.pending.tail, p.1 ∉ old) ∧
  (s.isResetting = false → ∀ p ∈ s.pending, p.1 ∉ old) ∧
  (∀ d, s.mediaRecorder = some d → d ∉ old) ∧
  (∀ d ∈ old, d ∈ s.started) ∧
  n ≤ s.blobs.length ∧
  (∀ b ∈ s.blobs.drop n, ∀ f ∈ b, f.device ∉ old)

/-- The strengthening of `ResetInv` that holds while the runs of a popped
stop event execute: the whole remaining queue is free of old devices. -/
def RunInv (old : List Nat) (n : Nat) (s : ModalState) : Prop :=
  (∀ f ∈ s.chunks, f.device ∉ old) ∧
  (∀ p ∈ s.pending, p.1 ∉ old) ∧
  (∀ d, s.mediaRecorder = some d → d ∉ old) ∧
  (∀ d ∈ old, d ∈ s.started) ∧
  n ≤ s.blobs.length ∧
  (∀ b ∈ s.blobs.drop n, ∀ f ∈ b, f.device ∉ old)

theorem RunInv.toResetInv {old : List Nat} {n : Nat} {s : ModalState}
    (h : RunInv old n s) : ResetInv old n s :=
  ⟨h.1, fun p hp => h.2.1 p (List.mem_of_mem_tail hp), fun _ => h.2.1, h.2.2.1,
    h.2.2.2.1, h.2.2.2.2.1, h.2.2.2.2.2⟩

theorem onStopRun_runInv {old : List Nat} {n : Nat} {s : ModalState}
    (h : RunInv old n s) : RunInv old n (onStopRun s) := by
  obtain ⟨h1, h2, h3, h4, h5, h6⟩ := h
  have hlen : n ≤ (s.blobs ++ [s.chunks]).length := by
    rw [List.length_append]
    omega
  have hdrop : ∀ b ∈ (s.blobs ++ [s.chunks]).drop n, ∀ f ∈ b, f.device ∉ old := by
    intro b hb
    rw [List.drop_append_of_le_length h5] at hb
    rcases List.mem_append.mp hb with hb | hb
    · exact h6 b hb
    · rw [List.mem_singleton.mp hb]
      exact h1
  unfold onStopRun
  split
  · exact ⟨h1, h2, h3, h4, h5, h6⟩
  · split
    · exact ⟨h1, h2, h3, h4, hlen, hdrop⟩
    · exact ⟨h1, h2, h3, h4, hlen, hdrop⟩

theorem onStopRuns_runInv {old : List Nat} {n : Nat} :
    ∀ (k : Nat) (s : ModalState), RunInv old n s → RunInv old n (onStopRuns k s)
  | 0, _, h => h
  | k + 1, s, h => onStopRuns_runInv k (onStopRun s) (onStopRun_runInv h)

/-- `ResetInv` is preserved by every platform-deliverable action. -/
theorem stepModal_resetInv {old : List Nat} {n : Nat} {s : ModalState} {a : Act}
    (ha : allowedAct s a = true) (hi : ResetInv old n s) :
    ResetInv old n (stepModal s a) := by
  obtain ⟨h1, h2, h3, h4, h5, h6, h7⟩ := hi
  cases a with
  | userStart d =>
    simp only [allowedAct, Bool.and_eq_true, beq_iff_eq, Bool.not_eq_true'] at ha
    obtain ⟨-, hfresh⟩ := ha
    have hdn : d ∉ old := fun hd => by
      have := h5 d hd
      rw [List.contains_eq_any_beq] at hfresh
      simp [List.any_eq_true] at hfresh
      exact hfresh d this rfl
    refine ⟨h1, h2, h3, ?_, ?_, h6, h7⟩
    · intro d' hd'
      simp only [stepModal] at hd'
      cases hd'
      exact hdn
    · intro d' hd'
      exact List.mem_append_left _ (h5 d' hd')
  | deviceData d x =>
    show ResetInv old n (onData s _)
    unfold onData
    split
    · exact ⟨h1, h2, h3, h4, h5, h6, h7⟩
    · rename_i hflag
      have hflag' : s.isResetting = false := by
        cases hf : s.isResetting
        · rfl
        · exact absurd hf hflag
      have hdn : d ∉ old := by
        simp only [allowedAct] at ha
        split at ha
        · rename_i d0 k rest hp
          have : d0 = d := by simpa using ha
          subst this
          exact h3 hflag' (d0, k) (by rw [hp]; exact List.mem_cons_self ..)
        · rename_i hp
          simp only [Bool.and_eq_true, beq_iff_eq] at ha
          exact h4 d ha.1
      refine ⟨?_, h2, h3, h4, h5, h6, h7⟩
      intro f hf
      rcases List.mem_append.mp hf with hf | hf
      · exact h1 f hf
      · rw [List.mem_singleton.mp hf]
        exact hdn
  | deviceStop d =>
    simp only [stepModal]
    split
    · rename_i d0 k rest hp
      split
      · have hrun : RunInv old n { s with pending := rest } := by
          refine ⟨h1, ?_, h4, h5, h6, h7⟩
          intro p hpmem
          exact h2 p (by rw [hp]; exact hpmem)
        exact (onStopRuns_runInv k _ hrun).toResetInv
      · exact ⟨h1, h2, h3, h4, h5, h6, h7⟩
    · exact ⟨h1, h2, h3, h4, h5, h6, h7⟩
  | userStop =>
    simp only [stepModal]
    cases hrec : s.mediaRecorder with
    | some d =>
      have hdn : d ∉ old := h4 d hrec
      refine ⟨h1, ?_, ?_, ?_, h5, h6, h7⟩
      · cases hpc : s.pending with
        | nil => simp [hpc]
        | cons q qs =>
          intro p hpmem
          simp only [hpc, List.cons_append, List.tail_cons] at hpmem
          rcases List.mem_append.mp hpmem with hm | hm
          · exact h2 p (by rw [hpc, List.tail_cons]; exact hm)
          · rw [List.mem_singleton.mp hm]
            exact hdn
      · intro hflag p hpmem
        rcases List.mem_append.mp hpmem with hm | hm
        · exact h3 hflag p hm
        · rw [List.mem_singleton.mp hm]
          exact hdn
      · intro d' hd'
        exact h4 d' (hrec.trans hd')
    | none =>
      exact ⟨h1, h2, h3, fun d' hd' => h4 d' (hrec.trans hd'), h5, h6, h7⟩
  | userReset =>
    simp only [stepModal]
    cases hrec : s.mediaRecorder with
    | some d =>
      have hpend : s.pending = [] := by
        simp only [allowedAct, hrec, Bool.and_eq_true, beq_iff_eq] at ha
        exact ha.1
      refine ⟨?_, ?_, ?_, ?_, h5, h6, h7⟩
      · intro f hf
        exact absurd hf (List.not_mem_nil f)
      · intro p hpmem
        rw [hpend] at hpmem
        simp at hpmem
      · intro hflag
        exact absurd hflag (by simp)
      · intro d' hd'
        exact absurd hd' (by simp)
    | none =>
      rw [allowedAct, hrec] at ha
      exact absurd ha (by simp)

/-- `ResetInv` survives any well-formed continuation. -/
theorem execFrom_resetInv {old : List Nat} {n : Nat} :
    ∀ (t : List Act) (s : ModalState), wfFrom s t = true → ResetInv old n s →
      ResetInv old n (execFrom s t) := by
  intro t
  induction t with
  | nil => intro s _ hi; exact hi
  | cons a t ih =>
    intro s hwf hi
    rw [show wfFrom s (a :: t) = (allowedAct s a && wfFrom (stepModal s a) t) from rfl,
      Bool.and_eq_true] at hwf
    exact ih (stepModal s a) hwf.2 (stepModal_resetInv hwf.1 hi)

/-- Actions that are neither stop events nor resets leave the flag and the
produced blobs alone and only append to the stop-event queue. -/
theorem quiet_step {s : ModalState} {a : Act} (h1 : isDeviceStop a = false)
    (h2 : isReset a = false) :
    (stepModal s a).isResetting = s.isResetting ∧ (stepModal s a).blobs = s.blobs ∧
    ∃ ext, (stepModal s a).pending = s.pending ++ ext := by
  cases a with
  | userStart d => exact ⟨rfl, rfl, [], by simp [stepModal]⟩
  | deviceData d x =>
    show (onData s _).isResetting = _ ∧ (onData s _).blobs = _ ∧ _
    unfold onData
    split
    · rename_i hflag
      exact ⟨rfl, rfl, [], by simp [stepModal, onData, hflag]⟩
    · rename_i hflag
      exact ⟨rfl, rfl, [], by simp [stepModal, onData, hflag]⟩
  | deviceStop d => exact absurd h1 (by simp [isDeviceStop])
  | userStop =>
    simp only [stepModal]
    cases hrec : s.mediaRecorder with
    | some d => exact ⟨rfl, rfl, [(d, 2)], rfl⟩
    | none => exact ⟨rfl, rfl, [], by simp⟩
  | userReset => exact absurd h2 (by simp [isReset])

theorem quiet_exec : ∀ (t : List Act) (s : ModalState),
    (∀ a ∈ t, isDeviceStop a = false ∧ isReset a = false) →
    (execFrom s t).isResetting = s.isResetting ∧ (execFrom s t).blobs = s.blobs ∧
    ∃ ext, (execFrom s t).pending = s.pending ++ ext := by
  intro t
  induction t with
  | nil => intro s _; exact ⟨rfl, rfl, [], by simp [execFrom]⟩
  | cons a t ih =>
    intro s h
    have ha := h a (List.mem_cons_self ..)
    obtain ⟨q1, q2, ext1, q3⟩ := quiet_step (s := s) ha.1 ha.2
    obtain ⟨r1, r2, ext2, r3⟩ := ih (stepModal s a) (fun b hb => h b (List.mem_cons_of_mem _ hb))
    refine ⟨?_, ?_, ext1 ++ ext2, ?_⟩
    · rw [show execFrom s (a :: t) = execFrom (stepModal s a) t from rfl, r1, q1]
    · rw [show execFrom s (a :: t) = execFrom (stepModal s a) t from rfl, r2, q2]
    · rw [show execFrom s (a :: t) = execFrom (stepModal s a) t from rfl, r3, q3,
        List.append_assoc]

/-- A single `onStop` run never raises the flag. -/
theorem onStopRun_flag {s : ModalState} (h : s.isResetting = false) :
    (onStopRun s).isResetting = false := by
  unfold onStopRun
  split
  · rfl
  · split <;> exact h

theorem onStopRuns_flag : ∀ (k : Nat) (s : ModalState), s.isResetting = false →
    (onStopRuns k s).isResetting = false
  | 0, _, h => h
  | k + 1, s, h => onStopRuns_flag k (onStopRun s) (onStopRun_flag h)

/-- Once the flag is down it stays down while no reset occurs. -/
theorem flagFalse_step {s : ModalState} {a : Act} (h2 : isReset a = false)
    (hf : s.isResetting = false) : (stepModal s a).isResetting = false := by
  cases a with
  | userStart d => exact hf
  | deviceData d x =>
    show (onData s _).isResetting = false
    unfold onData
    split <;> exact hf
  | deviceStop d =>
    simp only [stepModal]
    split
    · split
      · exact onStopRuns_flag _ _ hf
      · exact hf
    · exact hf
  | userStop =>
    simp only [stepModal]
    cases hrec : s.mediaRecorder with
    | some d => exact hf
    | none => exact hf
  | userReset => exact absurd h2 (by simp [isReset])

theorem flagFalse_exec : ∀ (t : List Act) (s : ModalState), (∀ a ∈ t, isReset a = false) →
    s.isResetting = false → (execFrom s t).isResetting = false := by
  intro t
  induction t with
  | nil => intro s _ hf; exact hf
  | cons a t ih =>
    intro s h hf
    exact ih (stepModal s a) (fun b hb => h b (List.mem_cons_of_mem _ hb))
      (flagFalse_step (h a (List.mem_cons_self ..)) hf)

/-- Executing a cons is stepping then executing. -/
theorem execFrom_cons (s : ModalState) (a : Act) (t : List Act) :
    execFrom s (a :: t) = execFrom (stepModal s a) t := rfl

/-- The state after a well-formed `hardReset` that discards device `d0`. -/
theorem reset_state (s1 : ModalState) (d0 : Nat) (hrec : s1.mediaRecorder = some d0)
    (hpend : s1.pending = []) :
    stepModal s1 Act.userReset
      = { s1 with mediaRecorder := none, isResetting := true, chunks := [],
                  pending := [(d0, 1)], requested := s1.requested ++ [d0] } := by
  simp [stepModal, hrec, hpend]

/-! ## C2 - reset discards the old session -/

/-- Claim C2.  Part one: along any platform-deliverable trace, every blob
built after a `hardReset` is free of fragments from every device started
before the reset - in particular from the discarded capture device - so no
pre-reset fragment can appear in any artifact a later `stop()` resolves
with, and each such blob holds only fragments captured after the reset.
Part two: in the scenario the claim describes - after the reset, stale
fragments and then the stale stop event of the discarded device `d0`
arrive, interleaved with non-stop, non-reset actions such as a fresh
`start()` - the discard flag stays up until the stale stop event, that
event is dropped (it clears the flag exactly then and builds no blob), and
with no further reset the flag never rises again. -/
theorem claim_C2_reset_discards :
    (∀ t1 t2 : List Act, wfFrom initModal (t1 ++ Act.userReset :: t2) = true →
      ∀ b ∈ (execModal (t1 ++ Act.userReset :: t2)).blobs.drop
          ((execModal (t1 ++ [Act.userReset])).blobs.length),
        ∀ f ∈ b, f.device ∉ (execModal t1).started) ∧
    (∀ (t1 u v : List Act) (d0 : Nat),
      wfFrom initModal (t1 ++ Act.userReset :: (u ++ Act.deviceStop d0 :: v)) = true →
      (execModal t1).mediaRecorder = some d0 →
      (∀ a ∈ u, isDeviceStop a = false ∧ isReset a = false) →
      (∀ a ∈ v, isReset a = false) →
      (∀ w w' : List Act, u = w ++ w' →
        (execFrom (execModal (t1 ++ [Act.userReset])) w).isResetting = true) ∧
      (execFrom (execModal (t1 ++ [Act.userReset])) (u ++ [Act.deviceStop d0])).isResetting
        = false ∧
      (execFrom (execModal (t1 ++ [Act.userReset])) (u ++ [Act.deviceStop d0])).blobs
        = (execModal (t1 ++ [Act.userReset])).blobs ∧
      (∀ w w' : List Act, v = w ++ w' →
        (execFrom (execModal (t1 ++ [Act.userReset]))
          ((u ++ [Act.deviceStop d0]) ++ w)).isResetting = false)) := by
  have hexec2 : ∀ t1 t2 : List Act,
      execModal (t1 ++ Act.userReset :: t2)
        = execFrom (stepModal (execModal t1) Act.userReset) t2 := by
    intro t1 t2
    rw [show execModal (t1 ++ Act.userReset :: t2)
        = execFrom (execModal t1) (Act.userReset :: t2) from execFrom_append ..]
    rfl
  have hreset : ∀ t1 : List Act,
      execModal (t1 ++ [Act.userReset]) = stepModal (execModal t1) Act.userReset := by
    intro t1
    rw [show execModal (t1 ++ [Act.userReset])
        = execFrom (execModal t1) [Act.userReset] from execFrom_append ..]
    rfl
  have hwfsplit : ∀ t1 t2 : List Act,
      wfFrom initModal (t1 ++ Act.userReset :: t2) = true →
      allowedAct (execModal t1) Act.userReset = true ∧
      wfFrom (stepModal (execModal t1) Act.userReset) t2 = true := by
    intro t1 t2 hwf
    rw [wfFrom_append, Bool.and_eq_true] at hwf
    have h2 := hwf.2
    rw [show wfFrom (execFrom initModal t1) (Act.userReset :: t2)
        = (allowedAct (execFrom initModal t1) Act.userReset
            && wfFrom (stepModal (execFrom initModal t1) Act.userReset) t2) from rfl,
      Bool.and_eq_true] at h2
    exact h2
  have hallow : ∀ t1 : List Act, allowedAct (execModal t1) Act.userReset = true →
      ∃ d0, (execModal t1).mediaRecorder = some d0 ∧ (execModal t1).pending = [] := by
    intro t1 ha
    cases hrec : (execModal t1).mediaRecorder with
    | some d =>
      rw [allowedAct, hrec] at ha
      simp only [Bool.and_eq_true, beq_iff_eq] at ha
      exact ⟨d, rfl, ha.1⟩
    | none =>
      rw [allowedAct, hrec] at ha
      exact absurd ha (by simp)
  have hInvR : ∀ (t1 : List Act) (d0 : Nat),
      (execModal t1).mediaRecorder = some d0 → (execModal t1).pending = [] →
      ResetInv (execModal t1).started
        (stepModal (execModal t1) Act.userReset).blobs.length
        (stepModal (execModal t1) Act.userReset) := by
    intro t1 d0 hrec hpend
    rw [reset_state _ _ hrec hpend]
    refine ⟨?_, ?_, ?_, ?_, ?_, Nat.le_refl _, ?_⟩
    · intro f hf
      exact absurd hf (List.not_mem_nil f)
    · intro p hp
      simp at hp
    · intro hflag
      exact absurd hflag (by simp)
    · intro d' hd'
      exact absurd hd' (by simp)
    · intro d' hd'
      exact hd'
    · intro b hb
      rw [List.drop_length] at hb
      exact absurd hb (List.not_mem_nil b)
  constructor
  · intro t1 t2 hwf
    obtain ⟨ha, hwt2⟩ := hwfsplit t1 t2 hwf
    obtain ⟨d0, hrec, hpend⟩ := hallow t1 ha
    have hfin := execFrom_resetInv t2 _ hwt2 (hInvR t1 d0 hrec hpend)
    rw [hexec2 t1 t2, hreset t1]
    exact hfin.2.2.2.2.2.2
  · intro t1 u v d0 hwf hrec hu hv
    obtain ⟨ha, hwt2⟩ := hwfsplit t1 (u ++ Act.deviceStop d0 :: v) hwf
    obtain ⟨d0', hrec', hpend⟩ := hallow t1 ha
    rw [hreset, reset_state _ _ hrec hpend]
    set sR : ModalState :=
      { execModal t1 with mediaRecorder := none, isResetting := true, chunks := [],
                          pending := [(d0, 1)],
                          requested := (execModal t1).requested ++ [d0] } with hsR
    obtain ⟨qf, qb, ext, qp⟩ := quiet_exec u sR hu
    have hstep : execFrom sR (u ++ [Act.deviceStop d0])
        = stepModal (execFrom sR u) (Act.deviceStop d0) := by
      rw [execFrom_append]
      rfl
    have hpendU : (execFrom sR u).pending = (d0, 1) :: ext := by
      rw [qp]
      rfl
    have hafter : stepModal (execFrom sR u) (Act.deviceStop d0)
        = { execFrom sR u with pending := ext, isResetting := false } := by
      rw [show stepModal (execFrom sR u) (Act.deviceStop d0)
          = (match (execFrom sR u).pending with
             | (d1, k) :: rest =>
                if d1 = d0 then onStopRuns k { execFrom sR u with pending := rest }
                else execFrom sR u
             | [] => execFrom sR u) from rfl,
        hpendU]
      simp only [if_pos rfl]
      show onStopRun { execFrom sR u with pending := ext }
        = { execFrom sR u with pending := ext, isResetting := false }
      unfold onStopRun
      rw [if_pos]
      show (execFrom sR u).isResetting = true
      rw [qf]
  -- the pieces
    refine ⟨?_, ?_, ?_, ?_⟩
    · intro w w' hw
      have hwmem : ∀ a ∈ w, isDeviceStop a = false ∧ isReset a = false := by
        intro a hamem
        exact hu a (by rw [hw]; exact List.mem_append_left _ hamem)
      exact ((quiet_exec w sR hwmem).1).trans rfl
    · rw [hstep, hafter]
    · rw [hstep, hafter]
      exact qb
    · intro w w' hw
      have hwmem : ∀ a ∈ w, isReset a = false := by
        intro a hamem
        exact hv a (by rw [hw]; exact List.mem_append_left _ hamem)
      rw [execFrom_append, hstep, hafter]
      exact flagFalse_exec w _ hwmem rfl

/-- Witness for `claim_C2_reset_discards` on a concrete session: device 0
records a fragment, the user resets, a stale fragment of device 0 arrives,
a fresh device 1 starts, the stale stop event of device 0 is dropped,
device 1 records and is stopped; every blob built after the reset avoids
device 0, the flag stays up exactly until the stale stop, and never rises
again. -/
theorem claim_C2_reset_discards_witness :
    (∀ b ∈ (execModal ([Act.userStart 0, Act.deviceData 0 10] ++ Act.userReset ::
          ([Act.deviceData 0 11, Act.userStart 1] ++ Act.deviceStop 0 ::
            [Act.deviceData 1 20, Act.userStop, Act.deviceStop 1]))).blobs.drop
        ((execModal ([Act.userStart 0, Act.deviceData 0 10]
            ++ [Act.userReset])).blobs.length),
      ∀ f ∈ b, f.device ∉ (execModal [Act.userStart 0, Act.deviceData 0 10]).started) ∧
    (execFrom (execModal ([Act.userStart 0, Act.deviceData 0 10] ++ [Act.userReset]))
        ([Act.deviceData 0 11, Act.userStart 1] ++ [Act.deviceStop 0])).isResetting
      = false := by
  constructor
  · exact claim_C2_reset_discards.1 [Act.userStart 0, Act.deviceData 0 10]
      ([Act.deviceData 0 11, Act.userStart 1] ++ Act.deviceStop 0 ::
        [Act.deviceData 1 20, Act.userStop, Act.deviceStop 1]) (by decide)
  · exact (claim_C2_reset_discards.2 [Act.userStart 0, Act.deviceData 0 10]
      [Act.deviceData 0 11, Act.userStart 1] [Act.deviceData 1 20, Act.userStop, Act.deviceStop 1]
      0 (by decide) (by decide) (by decide) (by decide)).2.1

/-! ## C6 - the stop contract -/

/-- `onStop` never touches the recorder handle. -/
theorem onStopRun_recorder (s : ModalState) :
    (onStopRun s).mediaRecorder = s.mediaRecorder := by
  unfold onStopRun
  split
  · rfl
  · split <;> rfl

theorem onStopRuns_recorder : ∀ (k : Nat) (s : ModalState),
    (onStopRuns k s).mediaRecorder = s.mediaRecorder
  | 0, _ => rfl
  | k + 1, s => (onStopRuns_recorder k (onStopRun s)).trans (onStopRun_recorder s)

/-- Without a successful `startRecording`, no recorder ever exists. -/
theorem noStart_recorder : ∀ (t : List Act) (s : ModalState),
    (∀ a ∈ t, isStart a = false) → s.mediaRecorder = none →
    (execFrom s t).mediaRecorder = none := by
  intro t
  induction t with
  | nil => intro s _ h; exact h
  | cons a t ih =>
    intro s hmem h
    refine ih (stepModal s a) (fun b hb => hmem b (List.mem_cons_of_mem _ hb)) ?_
    cases a with
    | userStart d => exact absurd (hmem _ (List.mem_cons_self ..)) (by simp [isStart])
    | deviceData d x =>
      show (onData s _).mediaRecorder = none
      unfold onData
      split <;> exact h
    | deviceStop d =>
      simp only [stepModal]
      split
      · split
        · exact (onStopRuns_recorder ..).trans h
        · exact h
      · exact h
    | userStop =>
      simp only [stepModal]
      rw [h]
    | userReset =>
      simp only [stepModal]
      rw [h]

/-- Delivering data fragments touches only the chunk buffer. -/
theorem dataExec (d : Nat) : ∀ (xs : List Nat) (s : ModalState),
    (execFrom s (xs.map (fun x => Act.deviceData d x))).pending = s.pending ∧
    (execFrom s (xs.map (fun x => Act.deviceData d x))).futureValue = s.futureValue ∧
    (execFrom s (xs.map (fun x => Act.deviceData d x))).accepted = s.accepted := by
  intro xs
  induction xs with
  | nil => intro s; exact ⟨rfl, rfl, rfl⟩
  | cons x xs ih =>
    intro s
    have hstep : (stepModal s (Act.deviceData d x)).pending = s.pending ∧
        (stepModal s (Act.deviceData d x)).futureValue = s.futureValue ∧
        (stepModal s (Act.deviceData d x)).accepted = s.accepted := by
      show (onData s _).pending = _ ∧ (onData s _).futureValue = _ ∧ (onData s _).accepted = _
      unfold onData
      split <;> exact ⟨rfl, rfl, rfl⟩
    have := ih (stepModal s (Act.deviceData d x))
    exact ⟨this.1.trans hstep.1, this.2.1.trans hstep.2.1, this.2.2.trans hstep.2.2⟩

/-- Two `onStop` runs against an unresolved promise settle it exactly once
with an audio blob, whatever the discard flag: either the first run
resolves and the second finds the promise settled, or the first run
consumes a stale reset and the second resolves. -/
theorem twoRuns (s : ModalState) (hfv : s.futureValue = none) :
    (onStopRuns 2 s).accepted = s.accepted + 1 ∧
    ∃ l, (onStopRuns 2 s).futureValue = some (Resolved.audioBlob l) := by
  show (onStopRun (onStopRun s)).accepted = _ ∧
    ∃ l, (onStopRun (onStopRun s)).futureValue = some (Resolved.audioBlob l)
  cases hflag : s.isResetting
  · have h1 : onStopRun s
        = { s with
            blobs := s.blobs ++ [s.chunks],
            futureValue := some (Resolved.audioBlob s.chunks),
            accepted := s.accepted + 1 } := by
      unfold onStopRun
      rw [if_neg (by rw [hflag]; exact Bool.false_ne_true), hfv]
    have h2 : onStopRun (onStopRun s)
        = { s with
            blobs := (s.blobs ++ [s.chunks]) ++ [s.chunks],
            futureValue := some (Resolved.audioBlob s.chunks),
            accepted := s.accepted + 1 } := by
      rw [h1]
      unfold onStopRun
      rw [if_neg (by show ¬s.isResetting = true; rw [hflag]; exact Bool.false_ne_true)]
    rw [h2]
    exact ⟨rfl, s.chunks, rfl⟩
  · have h1 : onStopRun s = { s with isResetting := false } := by
      unfold onStopRun
      rw [if_pos hflag]
    have h2 : onStopRun (onStopRun s)
        = { s with
            isResetting := false,
            blobs := s.blobs ++ [s.chunks],
            futureValue := some (Resolved.audioBlob s.chunks),
            accepted := s.accepted + 1 } := by
      rw [h1]
      unfold onStopRun
      rw [if_neg (by show ¬(false = true); exact Bool.false_ne_true), hfv]
    rw [h2]
    exact ⟨rfl, s.chunks, rfl⟩

/-- Claim C6.  Part one: `stopRecording` with no capture device ever
acquired resolves the fresh promise with `null` - the promise executor
calls `resolve(null)` (AudioRecordModal.ts:228), never `reject`, so no
error is raised.  Part two: a completed session - `stopRecording` on a live
recorder with an idle event queue, followed by the device's final fragments
and its stop event - settles the promise exactly once, with an audio
artifact; the stop event runs `onStop` twice (the listener added at
`startRecording` plus the one `stopRecording` adds), but a promise settles
only once, so exactly one artifact is delivered. -/
theorem claim_C6_single_artifact :
    (∀ t : List Act, (∀ a ∈ t, isStart a = false) →
      (execModal (t ++ [Act.userStop])).futureValue = some Resolved.nullBlob ∧
      (execModal (t ++ [Act.userStop])).accepted = (execModal t).accepted + 1) ∧
    (∀ (t1 : List Act) (xs : List Nat) (d : Nat),
      (execModal t1).mediaRecorder = some d →
      (execModal t1).pending = [] →
      (execModal (t1 ++ Act.userStop :: (xs.map (fun x => Act.deviceData d x)
          ++ [Act.deviceStop d]))).accepted = (execModal t1).accepted + 1 ∧
      ∃ l, (execModal (t1 ++ Act.userStop :: (xs.map (fun x => Act.deviceData d x)
          ++ [Act.deviceStop d]))).futureValue = some (Resolved.audioBlob l)) := by
  constructor
  · intro t hmem
    have hrec : (execModal t).mediaRecorder = none :=
      noStart_recorder t initModal hmem rfl
    have hstep : execModal (t ++ [Act.userStop])
        = stepModal (execModal t) Act.userStop := by
      rw [show execModal (t ++ [Act.userStop])
          = execFrom (execModal t) [Act.userStop] from execFrom_append ..]
      rfl
    rw [hstep]
    constructor
    · simp [stepModal, hrec]
    · simp [stepModal, hrec]
  · intro t1 xs d hrec hpend
    have hstop : stepModal (execModal t1) Act.userStop
        = { execModal t1 with futureValue := none, pending := [(d, 2)],
                              requested := (execModal t1).requested ++ [d] } := by
      simp [stepModal, hrec, hpend]
    have hexec : execModal (t1 ++ Act.userStop :: (xs.map (fun x => Act.deviceData d x)
        ++ [Act.deviceStop d]))
        = stepModal (execFrom (stepModal (execModal t1) Act.userStop)
            (xs.map (fun x => Act.deviceData d x))) (Act.deviceStop d) := by
      rw [show execModal (t1 ++ Act.userStop :: (xs.map (fun x => Act.deviceData d x)
            ++ [Act.deviceStop d]))
          = execFrom (execModal t1) (Act.userStop :: (xs.map (fun x => Act.deviceData d x)
            ++ [Act.deviceStop d])) from execFrom_append ..,
        execFrom_cons, execFrom_append]
      rfl
    set sStop := stepModal (execModal t1) Act.userStop with hsStop
    set sD := execFrom sStop (xs.map (fun x => Act.deviceData d x)) with hsD
    obtain ⟨hp, hfv, hacc⟩ := dataExec d xs sStop
    have hpD : sD.pending = [(d, 2)] := by rw [hp, hstop]
    have hfvD : sD.futureValue = none := by rw [hfv, hstop]
    have haccD : sD.accepted = (execModal t1).accepted := by rw [hacc, hstop]
    have hfinal : stepModal sD (Act.deviceStop d) = onStopRuns 2 { sD with pending := [] } := by
      rw [show stepModal sD (Act.deviceStop d)
          = (match sD.pending with
             | (d1, k) :: rest =>
                if d1 = d then onStopRuns k { sD with pending := rest } else sD
             | [] => sD) from rfl,
        hpD]
      simp
    have h2 := twoRuns { sD with pending := [] } hfvD
    rw [hexec, hfinal]
    refine ⟨?_, h2.2⟩
    rw [h2.1]
    show sD.accepted + 1 = (execModal t1).accepted + 1
    rw [haccD]

/-- Witness for `claim_C6_single_artifact`: stopping with no device ever
acquired resolves `null`; a started-and-stopped session with one fragment
resolves exactly once with that fragment's artifact. -/
theorem claim_C6_single_artifact_witness :
    (execModal ([Act.userStop] )).futureValue = some Resolved.nullBlob ∧
    (execModal ([Act.userStart 3] ++ Act.userStop :: ([5, 7].map
        (fun x => Act.deviceData 3 x) ++ [Act.deviceStop 3]))).accepted
      = (execModal [Act.userStart 3]).accepted + 1 := by
  constructor
  · exact (claim_C6_single_artifact.1 [] (by decide)).1
  · exact (claim_C6_single_artifact.2 [Act.userStart 3] [5, 7] 3 (by decide) (by decide)).1

end CaptainsLog
